import Mathlib

/-
Verification of the `AlterEnum` migration operation of `django_enum/operations.py`
(repository swist/django-more), against its natural-language specification.

The embedding below transcribes `AlterEnum.__init__`, `AlterEnum.state_forwards`,
`AlterEnum.database_forwards` and `AlterEnum.database_backwards`.  Python sets are
modelled as deduplicated lists (all claims about them are value-set level), SQL
statements as an inductive `Stmt` recording the template and its bound data, and
the executed alteration as a trace of events (DDL executions and row mutations).
External collaborators (Django's on_delete handlers and deletion Collector, the
connection feature flags) are modelled at their documented interface; parts of
the repository outside `operations.py` (the field's `db_type` rendering, the
migration state's `add_type`) are modelled from the spec and marked as such.
-/

set_option autoImplicit false

namespace DjangoEnum

/-- Django `on_delete` handlers as used by the operation.  `SET v` is Django's
`models.SET(value)`; it is the only handler among these that carries a
`deconstruct` attribute (checked by `hasattr(on_delete, 'deconstruct')` in
`database_forwards`). -/
inductive OnDelete where
  | CASCADE
  | PROTECT
  | SET_NULL
  | SET_DEFAULT
  | DO_NOTHING
  | SET (value : String)
deriving DecidableEq

/-- Truth of `hasattr(on_delete, 'deconstruct')` for each handler: Django's
`models.SET(value)` closures carry `deconstruct`; the plain handler functions
(`CASCADE`, `PROTECT`, `SET_NULL`, `SET_DEFAULT`, `DO_NOTHING`) do not. -/
def OnDelete.hasDeconstruct : OnDelete → Bool
  | .SET _ => true
  | _ => false

/-- One column whose declared type is the enum, as produced by `get_fields` plus
the model metadata reads in `database_forwards` (`model._meta.db_table`,
`field.column`), together with the field's declared removal policy
(`field.on_delete`) and its declared default (`field.get_default()`, `none` when
the field has no default). -/
structure EnumField where
  field_name : String
  column : String
  db_table : String
  on_delete : OnDelete
  default : Option String
deriving DecidableEq

/-- Database capability flags read from `schema_editor.connection.features`. -/
structure Features where
  has_enum : Bool
  requires_enum_declaration : Bool
deriving DecidableEq

/-- Python-level errors surfaced by the transcription: `set(None)` raises
`TypeError`; reading an unassigned local raises `NameError`. -/
inductive PyError where
  | typeError (msg : String)
  | nameError (ident : String)
deriving DecidableEq

/-- Python `set(xs)` on an optional iterable: `set(None)` raises `TypeError`,
otherwise the result is the deduplicated value collection. -/
def pySet : Option (List String) → Except PyError (List String)
  | none => .error (.typeError "NoneType object is not iterable")
  | some l => .ok l.dedup

/-- Python set union (membership is disjunction). -/
def pyUnion (a b : List String) : List String :=
  a ++ b.filter (fun v => decide (v ∉ a))

/-- Python set difference (membership in `a` and not in `b`). -/
def pyDiff (a b : List String) : List String :=
  a.filter (fun v => decide (v ∉ b))

/-- Boolean value-set equality of two lists. -/
def eqSet (a b : List String) : Bool :=
  a.all (fun v => decide (v ∈ b)) && b.all (fun v => decide (v ∈ a))

/-- The `AlterEnum` operation's own state after `__init__`: the enum's DB type
name, the two value sets, and the alteration-level `on_delete`.  In Python the
constructor parameter defaults to `models.PROTECT` (modelled `some .PROTECT`);
an explicit `on_delete=None` is modelled as `none`. -/
structure AlterEnum where
  db_type : String
  add_values : List String
  remove_values : List String
  on_delete : Option OnDelete
deriving DecidableEq

/-- Decidable equality for `Except`, used to evaluate the embedding on concrete
inputs. -/
instance {ε α : Type} [DecidableEq ε] [DecidableEq α] : DecidableEq (Except ε α) :=
  fun a b =>
    match a, b with
    | .ok x, .ok y =>
        if h : x = y then .isTrue (by rw [h]) else .isFalse (by simp [h])
    | .error x, .error y =>
        if h : x = y then .isTrue (by rw [h]) else .isFalse (by simp [h])
    | .ok _, .error _ => .isFalse (by simp)
    | .error _, .ok _ => .isFalse (by simp)

/-- Transcription of `AlterEnum.__init__(db_type, add_values=None,
remove_values=None, on_delete=models.PROTECT)`: both value arguments go through
`set(...)`, so passing (or defaulting to) `None` raises `TypeError`.  A caller
omitting `on_delete` supplies `some OnDelete.PROTECT`, the Python default. -/
def AlterEnum.init (db_type : String) (add_values remove_values : Option (List String))
    (on_delete : Option OnDelete) : Except PyError AlterEnum :=
  match pySet add_values with
  | .error e => .error e
  | .ok a =>
      match pySet remove_values with
      | .error e => .error e
      | .ok r =>
          .ok { db_type := db_type, add_values := a, remove_values := r, on_delete := on_delete }

/-- Migration state restricted to what the operation touches: the named enum
types and their value lists (`state.db_types`). -/
abbrev StateTypes := List (String × List String)

/-- Lookup of `state.db_types[name]` (first binding wins). -/
def lookupType (s : StateTypes) (n : String) : Option (List String) :=
  (s.find? (fun p => p.1 = n)).map Prod.snd

/-- Modelled from the spec: `state.add_type(name, enum)` comes from the
`django_types` package, which is not under `src/`; the spec's interface is
`set_enum_snapshot(name, EnumSnapshot)` — "replaces, does not merge".  The new
binding replaces any existing binding for the same name wholesale. -/
def addType (s : StateTypes) (n : String) (vs : List String) : StateTypes :=
  (n, vs) :: s.filter (fun p => decide (p.1 ≠ n))

/-- Value set computed at `operations.py:163`:
`(from_enum.values_set() | self.add_values) - self.remove_values`. -/
def toValuesOf (fromV add remove : List String) : List String :=
  pyDiff (pyUnion fromV add) remove

/-- Transcription of `AlterEnum.state_forwards`: read the current snapshot
(`KeyError`, modelled `none`, if the name is unbound), build the target value
set and store it under the same name. -/
def AlterEnum.state_forwards (op : AlterEnum) (s : StateTypes) : Option StateTypes :=
  match lookupType s op.db_type with
  | none => none
  | some fromV =>
      some (addType s op.db_type (toValuesOf fromV op.add_values op.remove_values))

/-- Rendering of a column type inside an `ALTER COLUMN ... TYPE ...` statement:
either a bare named DB type or a full inline declaration listing the values. -/
inductive TypeRef where
  | named (typeName : String)
  | decl (values : List String)
deriving DecidableEq

/-- Planned SQL statements, one constructor per `schema_editor` template used by
`AlterEnum.database_forwards` with its bound data. -/
inductive Stmt where
  | alterColumn (table column : String) (ty : TypeRef)
  | createEnum (typeName : String) (values : List String)
  | deleteEnum (typeName : String)
  | renameEnum (oldType newType : String)
  | addValue (typeName value : String)
deriving DecidableEq

/-- Fixed scratch type name `AlterEnum.temp_db_type`. -/
def temp_db_type : String := "django_enum_temp"

/-- Fixed scratch type name `AlterEnum.transition_db_type`. -/
def transition_db_type : String := "django_enum_transition"

/-- Modelled from the spec: `EnumField.db_type(connection)` lives in the
repository's `.fields` module, which is not under `src/`.  Per the spec's
interface, on a declared-enum database a column's type renders as the bare type
name; on an emulated-enum database it renders as the full declaration/constraint
parametrized by the type's values. -/
def fieldDbType (features : Features) (typeName : String) (values : List String) : TypeRef :=
  if features.requires_enum_declaration then .named typeName else .decl values

/-- Transcription of the field-list comprehension at `operations.py:176-182`.
The effective policy expression is `self.on_delete or field.on_delete`: when the
operation's `on_delete` is a handler (truthy) it is used for every column and the
right operand is never evaluated; when it is `None`, Python evaluates the bare
name `field`, which is an unassigned local of `database_forwards` at that point
(the comprehension binds `from_field`, not `field`), raising `NameError` as soon
as the comprehension body runs for a first column. -/
def resolveFields (op : AlterEnum) (fields : List EnumField) :
    Except PyError (List (EnumField × OnDelete)) :=
  match op.on_delete with
  | some p => .ok (fields.map (fun f => (f, p)))
  | none =>
      match fields with
      | [] => .ok []
      | _ :: _ => .error (.nameError "field")

/-- Condition of the `transition_fields` comprehension at `operations.py:218-221`:
the effective policy carries a `deconstruct` attribute (`models.SET(value)`), or
it is `SET_DEFAULT` and `field.get_default()` lies in `self.add_values`. -/
def needs_transition (add : List String) (fp : EnumField × OnDelete) : Bool :=
  fp.2.hasDeconstruct ||
    (fp.2 = OnDelete.SET_DEFAULT &&
      (match fp.1.default with
       | some d => decide (d ∈ add)
       | none => false))

/-- Plan built by the removal branch (`operations.py:184-265`), given the
resolved field list and the target snapshot's values
(`to_state.db_types[self.db_type].values_set()`).  Returns
`(pre_actions, post_actions)` in append order. -/
def planRemove (op : AlterEnum) (features : Features)
    (rf : List (EnumField × OnDelete)) (toValues : List String) :
    List Stmt × List Stmt :=
  let post1 : List Stmt :=
    if features.has_enum then
      if features.requires_enum_declaration then
        rf.map (fun fp => Stmt.alterColumn fp.1.db_table fp.1.column (.named temp_db_type))
      else
        rf.map (fun fp => Stmt.alterColumn fp.1.db_table fp.1.column (.decl toValues))
    else []
  let transition_fields : List (EnumField × OnDelete) :=
    if op.add_values ≠ [] then rf.filter (needs_transition op.add_values) else []
  let transition_values : List String := pyUnion toValues op.remove_values
  let pre2 : List Stmt :=
    if transition_fields ≠ [] ∧ features.has_enum then
      (if features.requires_enum_declaration then
        [Stmt.createEnum transition_db_type transition_values]
      else []) ++
      transition_fields.map (fun fp =>
        Stmt.alterColumn fp.1.db_table fp.1.column
          (fieldDbType features transition_db_type transition_values))
    else []
  let post2 : List Stmt :=
    if transition_fields ≠ [] ∧ features.has_enum ∧ features.requires_enum_declaration then
      [Stmt.deleteEnum transition_db_type]
    else []
  let pre3 : List Stmt :=
    if features.requires_enum_declaration then
      [Stmt.createEnum temp_db_type toValues]
    else []
  let post3 : List Stmt :=
    if features.requires_enum_declaration then
      [Stmt.deleteEnum op.db_type, Stmt.renameEnum temp_db_type op.db_type]
    else []
  (pre2 ++ pre3, post1 ++ post2 ++ post3)

/-- Plan building of `database_forwards` (`operations.py:168-287`).  In the
pure-addition branch on a database with `has_enum` but without
`requires_enum_declaration`, the loop body reads the local `sql`, which is never
assigned in that branch (`operations.py:282` discards the formatted statement
instead of binding it), so any non-empty field list raises `NameError`. -/
def buildPlan (op : AlterEnum) (features : Features)
    (rf : List (EnumField × OnDelete)) (toValues : List String) :
    Except PyError (List Stmt × List Stmt) :=
  if op.remove_values ≠ [] then
    .ok (planRemove op features rf toValues)
  else if op.add_values ≠ [] then
    if features.requires_enum_declaration then
      .ok ([], op.add_values.map (fun v => Stmt.addValue op.db_type v))
    else if features.has_enum then
      match rf with
      | [] => .ok ([], [])
      | _ :: _ => .error (.nameError "sql")
    else .ok ([], [])
  else .ok ([], [])

/-- One stored row of an affected table, as seen by the data-migration queries
(only the primary key is selected from matching rows). -/
structure Row where
  db_table : String
  column : String
  pk : Nat
  value : String
deriving DecidableEq

/-- Row mutations performed by `Collector.delete()` (the cascade-collection
collaborator): bulk row deletion and bulk column update. -/
inductive Mutation where
  | deleteRows (db_table : String) (pks : List Nat)
  | updateRows (db_table column : String) (value : Option String) (pks : List Nat)
deriving DecidableEq

/-- Error raised during data migration: Django's `PROTECT` handler raises
`ProtectedError` (a subclass of `IntegrityError`) for the offending column. -/
inductive MigError where
  | protectedError (db_table column : String)
deriving DecidableEq

/-- Queryset `from_model.objects.filter(field__in=self.remove_values).only('pk')`
for one column: primary keys of rows of the column's table holding a value in
`remove_values`. -/
def qsOf (db : List Row) (f : EnumField) (remove : List String) : List Nat :=
  (db.filter (fun r =>
    r.db_table = f.db_table && r.column = f.column && decide (r.value ∈ remove))).map Row.pk

/-- Interface model of Django's `on_delete` handlers applied to a non-empty
queryset: `PROTECT` raises immediately; the others register mutations with the
collector, performed when `collector.delete()` runs. -/
def applyOnDelete (f : EnumField) (p : OnDelete) (pks : List Nat) :
    Except MigError (List Mutation) :=
  match p with
  | .PROTECT => .error (.protectedError f.db_table f.column)
  | .CASCADE => .ok [.deleteRows f.db_table pks]
  | .SET_NULL => .ok [.updateRows f.db_table f.column none pks]
  | .SET_DEFAULT => .ok [.updateRows f.db_table f.column f.default pks]
  | .SET v => .ok [.updateRows f.db_table f.column (some v) pks]
  | .DO_NOTHING => .ok []

/-- Transcription of the data-migration loop (`operations.py:300-314`): for each
affected field in order, evaluate its queryset; when non-empty, apply the
effective `on_delete` handler to the collector.  A `PROTECT` violation raises
there, before `collector.delete()` executes, so no registered mutation of any
column is performed.  On success the mutations of all fields run at
`collector.delete()`. -/
def collectOnDelete (remove : List String) (db : List Row) :
    List (EnumField × OnDelete) → Except MigError (List Mutation)
  | [] => .ok []
  | fp :: rest =>
      let pks := qsOf db fp.1 remove
      if pks ≠ [] then
        match applyOnDelete fp.1 fp.2 pks with
        | .error e => .error e
        | .ok ms => (collectOnDelete remove db rest).map (fun tail => ms ++ tail)
      else collectOnDelete remove db rest

/-- Observable events of one `database_forwards` run, in execution order. -/
inductive Event where
  | ddl (s : Stmt)
  | mut (m : Mutation)
deriving DecidableEq

/-- Error surfaced by a `database_forwards` run. -/
inductive FwdError where
  | py (e : PyError)
  | mig (e : MigError)
deriving DecidableEq

/-- Transcription of `AlterEnum.database_forwards` (`operations.py:166-318`):
build the field list and the plan, execute every pre-action, run the
data-migration phase when values are removed, then execute every post-action.
`toValues` stands for `to_state.db_types[self.db_type].values_set()` and `db`
for the rows of the affected tables.  The result is the trace of executed
events together with the error, if any, that aborted the run at that point. -/
def AlterEnum.database_forwards (op : AlterEnum) (features : Features)
    (fields : List EnumField) (toValues : List String) (db : List Row) :
    List Event × Option FwdError :=
  match resolveFields op fields with
  | .error e => ([], some (.py e))
  | .ok rf =>
      match buildPlan op features rf toValues with
      | .error e => ([], some (.py e))
      | .ok plan =>
          let preEv := plan.1.map Event.ddl
          if op.remove_values ≠ [] then
            match collectOnDelete op.remove_values db rf with
            | .error e => (preEv, some (.mig e))
            | .ok muts =>
                (preEv ++ muts.map Event.mut ++ plan.2.map Event.ddl, none)
          else
            (preEv ++ plan.2.map Event.ddl, none)

/-- Transcription of `AlterEnum.database_backwards` (`operations.py:320-321`):
the method body is `pass` — it executes nothing and raises nothing. -/
def AlterEnum.database_backwards (_op : AlterEnum) : List Event × Option FwdError :=
  ([], none)

/-- Database-side meaning of the planned DDL statements on the declared enum
types: create, drop and rename act on the named types; `ADD VALUE` appends to
the named type's value list; column alterations do not change any type's value
set. -/
def applyStmt (dbT : StateTypes) : Stmt → StateTypes
  | .createEnum n vs => (n, vs) :: dbT
  | .deleteEnum n => dbT.filter (fun p => decide (p.1 ≠ n))
  | .renameEnum o n => dbT.map (fun p => if p.1 = o then (n, p.2) else p)
  | .addValue n v => dbT.map (fun p => if p.1 = n then (p.1, p.2 ++ [v]) else p)
  | .alterColumn _ _ _ => dbT

/-- Folding a trace of events over the declared-type state; row mutations do not
touch the type declarations. -/
def applyEvents (dbT : StateTypes) (evs : List Event) : StateTypes :=
  evs.foldl (fun d e =>
    match e with
    | .ddl s => applyStmt d s
    | .mut _ => d) dbT

/-- Written from the spec's words, for comparison with the source's
`needs_transition`: the spec says a transition type is needed exactly when the
policy is `Cascade`, or `SetDefault` with the column's default lying in
`values_to_remove`. -/
def needsTransitionSpec (remove : List String) (fp : EnumField × OnDelete) : Bool :=
  fp.2 = OnDelete.CASCADE ||
    (fp.2 = OnDelete.SET_DEFAULT &&
      (match fp.1.default with
       | some d => decide (d ∈ remove)
       | none => false))

/-- Does the pre-action list alter the given column (to any type)?  In the
removal branch, the only column alterations among pre-actions are the
transitional widenings. -/
def columnPreAltered (pre : List Stmt) (f : EnumField) : Bool :=
  pre.any (fun s =>
    match s with
    | .alterColumn t c _ => t = f.db_table && c = f.column
    | _ => false)

/-! Concrete fixtures used by counterexamples and witnesses. -/

/-- Alteration removing `blue` and adding `yellow`, with the alteration-level
policy `CASCADE`. -/
def cex1op : AlterEnum :=
  { db_type := "color", add_values := ["yellow"], remove_values := ["blue"],
    on_delete := some OnDelete.CASCADE }

/-- Column declared with policy `CASCADE` and no default. -/
def cex1field : EnumField :=
  { field_name := "shade", column := "shade", db_table := "app_table",
    on_delete := OnDelete.CASCADE, default := none }

/-- Declared-enum database (native enums, declarations required). -/
def declFeatures : Features :=
  { has_enum := true, requires_enum_declaration := true }

/-- Emulated-enum database (native enum support flag, no declarations). -/
def emulFeatures : Features :=
  { has_enum := true, requires_enum_declaration := false }

/-- Target snapshot values for the `cex1op` alteration. -/
def cex1to : List String := ["red", "green", "yellow"]

/-- Column declared with policy `SET "red"` (a handler carrying `deconstruct`). -/
def wSetField : EnumField :=
  { field_name := "shade", column := "shade", db_table := "app_table",
    on_delete := OnDelete.SET "red", default := none }

/-- Pure-addition alteration adding `yellow`. -/
def addOnlyOp : AlterEnum :=
  { db_type := "color", add_values := ["yellow"], remove_values := [],
    on_delete := some OnDelete.PROTECT }

/-! Theorems settling the claims. -/

/-- C10: constructing an `AlterEnum` succeeds exactly when both `add_values` and
`remove_values` are given as iterables; omitting either (both default to `None`)
or passing `None` makes `set(...)` raise `TypeError`, so construction fails
rather than producing an operation with an empty value set. -/
theorem C10_init_requires_iterables (d : String) (a r : Option (List String))
    (od : Option OnDelete) :
    (∃ op, AlterEnum.init d a r od = Except.ok op) ↔ (a.isSome ∧ r.isSome) := by
  cases a <;> cases r <;>
    simp [AlterEnum.init, pySet, Option.isSome]

/-- C6: on a database with native enum support but no enum declarations, a
pure-addition alteration with one affected column does not build one
regenerating post-action per column — plan building reads the unassigned local
`sql` (`operations.py:282` discards the formatted statement instead of binding
it) and the run aborts with `NameError` before anything executes. -/
theorem C6_add_emulated_raises :
    AlterEnum.database_forwards addOnlyOp emulFeatures [cex1field]
        ["red", "green", "blue", "yellow"] [] =
      ([], some (.py (.nameError "sql"))) := by
  decide

/-- C9 counterexample: a column declared with policy `CASCADE`, altered by an
operation built without an `on_delete` argument (so the Python default
`models.PROTECT` is in force), resolves to effective policy `PROTECT`, not the
column's declared `CASCADE` — the declared policy does not govern when no
override is supplied. -/
theorem C9_counterexample :
    AlterEnum.init "color" (some ["yellow"]) (some ["blue"]) (some OnDelete.PROTECT) =
      Except.ok ⟨"color", ["yellow"], ["blue"], some OnDelete.PROTECT⟩ ∧
    cex1field.on_delete = OnDelete.CASCADE ∧
    resolveFields ⟨"color", ["yellow"], ["blue"], some OnDelete.PROTECT⟩ [cex1field] =
      Except.ok [(cex1field, OnDelete.PROTECT)] ∧
    OnDelete.PROTECT ≠ OnDelete.CASCADE := by
  decide

/-- C9 (amended): the effective policy of every affected column is the
alteration's `on_delete` whenever that is a handler — and the constructor
defaults it to `PROTECT`, so with no override supplied `PROTECT` governs every
column; the declared policy branch is reachable only by passing `on_delete=None`
explicitly, and then building the field list raises `NameError` (the fallback
reads the unassigned local `field` instead of `from_field`) as soon as any
column is affected. -/
theorem C9_amended_effective_policy (op : AlterEnum) (fields : List EnumField)
    (p : OnDelete) :
    (op.on_delete = some p →
      resolveFields op fields = Except.ok (fields.map (fun f => (f, p)))) ∧
    (op.on_delete = none → fields ≠ [] →
      resolveFields op fields = Except.error (.nameError "field")) := by
  constructor
  · intro h
    simp [resolveFields, h]
  · intro h hf
    cases fields with
    | nil => exact absurd rfl hf
    | cons f fs => simp [resolveFields, h]

/-- Witness for `C9_amended_effective_policy` at a concrete input. -/
theorem C9_amended_effective_policy_witness :
    resolveFields ⟨"color", ["yellow"], ["blue"], some OnDelete.PROTECT⟩ [cex1field] =
      Except.ok [(cex1field, OnDelete.PROTECT)] :=
  (C9_amended_effective_policy ⟨"color", ["yellow"], ["blue"], some OnDelete.PROTECT⟩
    [cex1field] OnDelete.PROTECT).1 rfl

/-- C1 counterexample: a removal alteration (`remove {blue}`, `add {yellow}`) on
a declared-enum database, affecting one column whose effective policy is
`CASCADE`: the spec's condition says the column needs a transition type, but the
built plan neither alters that column in any pre-action nor creates the
transition type — the source's condition (`operations.py:218-221`) tests for a
`deconstruct` attribute (`SET(value)` handlers) and for `SET_DEFAULT` with the
default among the *added* values, so a `CASCADE` column gets no transition. -/
theorem C1_counterexample :
    needsTransitionSpec cex1op.remove_values (cex1field, OnDelete.CASCADE) = true ∧
    buildPlan cex1op declFeatures [(cex1field, OnDelete.CASCADE)] cex1to =
      Except.ok (planRemove cex1op declFeatures [(cex1field, OnDelete.CASCADE)] cex1to) ∧
    columnPreAltered
      (planRemove cex1op declFeatures [(cex1field, OnDelete.CASCADE)] cex1to).1
      cex1field = false ∧
    ((planRemove cex1op declFeatures [(cex1field, OnDelete.CASCADE)] cex1to).1.all
      (fun s => decide (s ≠ Stmt.createEnum transition_db_type
        (pyUnion cex1to cex1op.remove_values)))) = true := by
  decide

/-- Membership of a column alteration among the pre-actions of the removal
branch: exactly the transitional widenings of the `transition_fields` columns. -/
theorem alterColumn_mem_pre (op : AlterEnum) (features : Features)
    (rf : List (EnumField × OnDelete)) (toValues : List String)
    (t c : String) (ty : TypeRef) (he : features.has_enum = true) :
    Stmt.alterColumn t c ty ∈ (planRemove op features rf toValues).1 ↔
      ∃ fp ∈ (if op.add_values ≠ [] then rf.filter (needs_transition op.add_values) else []),
        fp.1.db_table = t ∧ fp.1.column = c ∧
        fieldDbType features transition_db_type (pyUnion toValues op.remove_values) = ty := by
  by_cases ha : op.add_values ≠ []
  · by_cases htf : rf.filter (needs_transition op.add_values) ≠ []
    · by_cases hd : features.requires_enum_declaration = true
      · simp [planRemove, he, ha, htf, hd, fieldDbType]
      · simp only [Bool.not_eq_true] at hd
        simp [planRemove, he, ha, htf, hd, fieldDbType]
    · simp only [ne_eq, not_not] at htf
      by_cases hd : features.requires_enum_declaration = true
      · simp [planRemove, he, ha, htf, hd]
      · simp only [Bool.not_eq_true] at hd
        simp [planRemove, he, ha, htf, hd]
  · simp only [ne_eq, not_not] at ha
    by_cases hd : features.requires_enum_declaration = true
    · simp [planRemove, he, ha, hd]
    · simp only [Bool.not_eq_true] at hd
      simp [planRemove, he, ha, hd]

/-- C1 (amended): for a removal alteration on a database with native enum
support, an affected column is widened to the transition type (a pre-action
altering that column) if and only if `values_to_add` is non-empty and the
column's effective policy carries a `deconstruct` attribute (a `SET(value)`
handler) or is `SET_DEFAULT` with the column's default lying in
`values_to_add`; `CASCADE`, `PROTECT`, `SET_NULL` and `SET_DEFAULT`-to-other
columns never get a transition type, and no transition type exists at all for
a pure removal. -/
theorem C1_amended_transition_condition (op : AlterEnum) (features : Features)
    (rf : List (EnumField × OnDelete)) (toValues : List String) (t c : String)
    (hr : op.remove_values ≠ []) (he : features.has_enum = true) :
    buildPlan op features rf toValues =
      Except.ok (planRemove op features rf toValues) ∧
    ((∃ ty, Stmt.alterColumn t c ty ∈ (planRemove op features rf toValues).1) ↔
      (op.add_values ≠ [] ∧ ∃ fp ∈ rf, fp.1.db_table = t ∧ fp.1.column = c ∧
        needs_transition op.add_values fp = true)) := by
  refine ⟨by simp [buildPlan, hr], ?_⟩
  constructor
  · rintro ⟨ty, hty⟩
    rw [alterColumn_mem_pre op features rf toValues t c ty he] at hty
    obtain ⟨fp, hfp, h1, h2, _⟩ := hty
    by_cases ha : op.add_values ≠ []
    · rw [if_pos ha, List.mem_filter] at hfp
      exact ⟨ha, fp, hfp.1, h1, h2, hfp.2⟩
    · rw [if_neg ha] at hfp
      exact absurd hfp (List.not_mem_nil fp)
  · rintro ⟨ha, fp, hfp, h1, h2, h3⟩
    refine ⟨fieldDbType features transition_db_type (pyUnion toValues op.remove_values), ?_⟩
    rw [alterColumn_mem_pre op features rf toValues t c _ he]
    exact ⟨fp, by rw [if_pos ha, List.mem_filter]; exact ⟨hfp, h3⟩, h1, h2, rfl⟩

/-- Witness for `C1_amended_transition_condition`: a removal alteration with one
`SET "red"` column on a declared-enum database. -/
theorem C1_amended_transition_condition_witness :
    buildPlan cex1op declFeatures [(wSetField, OnDelete.SET "red")] cex1to =
      Except.ok (planRemove cex1op declFeatures [(wSetField, OnDelete.SET "red")] cex1to) ∧
    ((∃ ty, Stmt.alterColumn "app_table" "shade" ty ∈
        (planRemove cex1op declFeatures [(wSetField, OnDelete.SET "red")] cex1to).1) ↔
      (cex1op.add_values ≠ [] ∧
        ∃ fp ∈ [(wSetField, OnDelete.SET "red")],
          fp.1.db_table = "app_table" ∧ fp.1.column = "shade" ∧
          needs_transition cex1op.add_values fp = true)) :=
  C1_amended_transition_condition cex1op declFeatures [(wSetField, OnDelete.SET "red")]
    cex1to "app_table" "shade" (by decide) (by decide)

/-- Existence of a protect failure: if some field of the resolved list has
effective policy `PROTECT` and a non-empty queryset of rows holding removed
values, the collection loop raises before `collector.delete()` runs. -/
theorem collect_error_of_protect (remove : List String) (db : List Row) :
    ∀ rf : List (EnumField × OnDelete),
      (∃ fp ∈ rf, fp.2 = OnDelete.PROTECT ∧ qsOf db fp.1 remove ≠ []) →
      ∃ e, collectOnDelete remove db rf = Except.error e
  | [], h => by
      obtain ⟨fp, hfp, _⟩ := h
      exact absurd hfp (List.not_mem_nil fp)
  | fp :: rest, h => by
      obtain ⟨gp, hgp, hprot, hqs⟩ := h
      rcases List.mem_cons.mp hgp with heq | htail
      · subst heq
        refine ⟨.protectedError gp.1.db_table gp.1.column, ?_⟩
        simp only [collectOnDelete, if_pos hqs, hprot, applyOnDelete]
      · by_cases hq : qsOf db fp.1 remove ≠ []
        · cases hap : applyOnDelete fp.1 fp.2 (qsOf db fp.1 remove) with
          | error e =>
              exact ⟨e, by simp only [collectOnDelete, if_pos hq, hap]⟩
          | ok ms =>
              obtain ⟨e, he⟩ := collect_error_of_protect remove db rest ⟨gp, htail, hprot, hqs⟩
              refine ⟨e, ?_⟩
              simp only [collectOnDelete, if_pos hq, hap, he, Except.map]
        · obtain ⟨e, he⟩ := collect_error_of_protect remove db rest ⟨gp, htail, hprot, hqs⟩
          exact ⟨e, by simp only [collectOnDelete, if_neg hq, he]⟩

/-- Pure-removal alteration dropping `blue`, alteration policy `PROTECT`. -/
def cex2op : AlterEnum :=
  { db_type := "color", add_values := [], remove_values := ["blue"],
    on_delete := some OnDelete.PROTECT }

/-- First protect column of the C2 counterexample. -/
def cex2f1 : EnumField :=
  { field_name := "c1", column := "c1", db_table := "t",
    on_delete := OnDelete.PROTECT, default := none }

/-- Second protect column of the C2 counterexample. -/
def cex2f2 : EnumField :=
  { field_name := "c2", column := "c2", db_table := "t",
    on_delete := OnDelete.PROTECT, default := none }

/-- Rows violating the removal under both protect columns. -/
def cex2db : List Row :=
  [{ db_table := "t", column := "c1", pk := 1, value := "blue" },
   { db_table := "t", column := "c2", pk := 2, value := "blue" }]

/-- C2 counterexample: two protect-policy columns both hold the removed value
`blue`, yet the run fails reporting only the first column's violation — the
`PROTECT` handler raises at the first violating column in field order, so the
second column's check is never evaluated and no aggregation of violations
occurs. -/
theorem C2_counterexample :
    qsOf cex2db cex2f2 cex2op.remove_values ≠ [] ∧
    qsOf cex2db cex2f1 cex2op.remove_values ≠ [] ∧
    AlterEnum.database_forwards cex2op declFeatures [cex2f1, cex2f2]
        ["red", "green"] cex2db =
      ([Event.ddl (Stmt.createEnum temp_db_type ["red", "green"])],
        some (.mig (.protectedError "t" "c1"))) ∧
    MigError.protectedError "t" "c1" ≠ MigError.protectedError "t" "c2" := by
  decide

/-- C2 (amended): if any affected column has effective policy `PROTECT` and a
row holding a value in `values_to_remove`, the alteration fails with
`ProtectedError` (Django's `IntegrityError` subclass); the trace shows only the
executed pre-actions — no row mutation is performed and no post-action runs.
The error is raised at the first violating protect column in field order, and
later columns' checks are not evaluated (no aggregation). -/
theorem C2_amended_protect_blocks (op : AlterEnum) (features : Features)
    (fields : List EnumField) (toValues : List String) (db : List Row)
    (rf : List (EnumField × OnDelete)) (fp : EnumField × OnDelete)
    (hres : resolveFields op fields = Except.ok rf)
    (hmem : fp ∈ rf) (hprot : fp.2 = OnDelete.PROTECT)
    (hqs : qsOf db fp.1 op.remove_values ≠ [])
    (hr : op.remove_values ≠ []) :
    ∃ t c, AlterEnum.database_forwards op features fields toValues db =
      ((planRemove op features rf toValues).1.map Event.ddl,
        some (.mig (.protectedError t c))) := by
  obtain ⟨e, he⟩ :=
    collect_error_of_protect op.remove_values db rf ⟨fp, hmem, hprot, hqs⟩
  cases e with
  | protectedError t c =>
      refine ⟨t, c, ?_⟩
      simp [AlterEnum.database_forwards, hres, buildPlan, hr, he]

/-- Witness for `C2_amended_protect_blocks` at the concrete two-column input. -/
theorem C2_amended_protect_blocks_witness :
    ∃ t c, AlterEnum.database_forwards cex2op declFeatures [cex2f1, cex2f2]
        ["red", "green"] cex2db =
      ((planRemove cex2op declFeatures
          [(cex2f1, OnDelete.PROTECT), (cex2f2, OnDelete.PROTECT)] ["red", "green"]).1.map
          Event.ddl,
        some (.mig (.protectedError t c))) :=
  C2_amended_protect_blocks cex2op declFeatures [cex2f1, cex2f2] ["red", "green"] cex2db
    [(cex2f1, OnDelete.PROTECT), (cex2f2, OnDelete.PROTECT)] (cex2f1, OnDelete.PROTECT)
    (by decide) (by decide) (by decide) (by decide) (by decide)

/-- Effect of one `ADD VALUE` statement on the looked-up type. -/
theorem lookupType_addValue (dbT : StateTypes) (n v : String) :
    lookupType (applyStmt dbT (Stmt.addValue n v)) n =
      (lookupType dbT n).map (fun vs => vs ++ [v]) := by
  induction dbT with
  | nil => rfl
  | cons p rest ih =>
      by_cases h : p.1 = n
      · simp [lookupType, applyStmt, h]
      · simp only [applyStmt] at ih ⊢
        simp [lookupType, List.find?_cons, h] at ih ⊢
        exact ih

/-- Unfolding of `applyEvents` on a cons cell. -/
theorem applyEvents_cons (dbT : StateTypes) (e : Event) (es : List Event) :
    applyEvents dbT (e :: es) =
      applyEvents (match e with | .ddl s => applyStmt dbT s | .mut _ => dbT) es := rfl

/-- Effect of a list of `ADD VALUE` statements on the looked-up type: the added
values are appended in order. -/
theorem lookupType_addValueEvents (l : List String) (dbT : StateTypes) (n : String) :
    lookupType (applyEvents dbT (l.map (fun v => Event.ddl (Stmt.addValue n v)))) n =
      (lookupType dbT n).map (fun vs => vs ++ l) := by
  induction l generalizing dbT with
  | nil =>
      cases h : lookupType dbT n <;> simp [applyEvents, h]
  | cons v vs ih =>
      rw [List.map_cons, applyEvents_cons]
      rw [ih, lookupType_addValue]
      cases lookupType dbT n <;> simp

/-- Membership in the Python set union. -/
theorem mem_pyUnion (a b : List String) (v : String) :
    v ∈ pyUnion a b ↔ v ∈ a ∨ v ∈ b := by
  simp only [pyUnion, List.mem_append, List.mem_filter, decide_eq_true_eq]
  tauto

/-- Boolean set equality means two-sided membership. -/
theorem eqSet_eq_true_iff (a b : List String) :
    eqSet a b = true ↔ (∀ v, v ∈ a ↔ v ∈ b) := by
  simp only [eqSet, Bool.and_eq_true, List.all_eq_true, decide_eq_true_eq]
  constructor
  · rintro ⟨h1, h2⟩ v
    exact ⟨fun hv => h1 v hv, fun hv => h2 v hv⟩
  · intro h
    exact ⟨fun v hv => (h v).mp hv, fun v hv => (h v).mpr hv⟩

/-- Initial declared types for the C3 round-trip counterexample. -/
def cex3types : StateTypes := [("color", ["red", "green", "blue"])]

/-- C3 counterexample: a pure addition of `{yellow}` (disjoint from the snapshot
`{red, green, blue}`) on a declared-enum database.  `database_forwards` widens
the live type; `database_backwards` is `pass` and removes nothing, so the
round-tripped type holds `{red, green, blue, yellow}`, which is not value-set
equal to the original snapshot. -/
theorem C3_counterexample :
    addOnlyOp.remove_values = [] ∧
    addOnlyOp.add_values ≠ [] ∧
    addOnlyOp.add_values.all
      (fun v => decide (v ∉ ["red", "green", "blue"])) = true ∧
    lookupType
      (applyEvents
        (applyEvents cex3types
          (AlterEnum.database_forwards addOnlyOp declFeatures []
            ["red", "green", "blue", "yellow"] []).1)
        (AlterEnum.database_backwards addOnlyOp).1) "color" =
      some ["red", "green", "blue", "yellow"] ∧
    eqSet ["red", "green", "blue", "yellow"] ["red", "green", "blue"] = false := by
  decide

/-- C3 (amended): `database_backwards` is a no-op (`pass`): it executes no
statement, so forwards-then-backwards of a pure addition on a declared-enum
database leaves the type's value set at `S ∪ A`, not `S`; the prior snapshot is
restored only when the addition set adds nothing. -/
theorem C3_amended_backwards_noop (op : AlterEnum) (features : Features)
    (fields : List EnumField) (toValues : List String) (db : List Row)
    (dbT : StateTypes) (S : List String) (p : OnDelete)
    (hod : op.on_delete = some p)
    (hr : op.remove_values = []) (ha : op.add_values ≠ [])
    (hd : features.requires_enum_declaration = true)
    (hS : lookupType dbT op.db_type = some S) :
    AlterEnum.database_backwards op = ([], none) ∧
    lookupType
      (applyEvents
        (applyEvents dbT
          (AlterEnum.database_forwards op features fields toValues db).1)
        (AlterEnum.database_backwards op).1) op.db_type =
      some (S ++ op.add_values) ∧
    eqSet (S ++ op.add_values) (pyUnion S op.add_values) = true := by
  have htr : (AlterEnum.database_forwards op features fields toValues db).1 =
      op.add_values.map (fun v => Event.ddl (Stmt.addValue op.db_type v)) := by
    simp [AlterEnum.database_forwards, resolveFields, hod, buildPlan, hr, ha, hd]
  refine ⟨rfl, ?_, ?_⟩
  · rw [htr]
    show lookupType
      (applyEvents dbT
        (op.add_values.map (fun v => Event.ddl (Stmt.addValue op.db_type v))))
      op.db_type = some (S ++ op.add_values)
    rw [lookupType_addValueEvents, hS]
    rfl
  · rw [eqSet_eq_true_iff]
    intro v
    rw [List.mem_append, mem_pyUnion]

/-- Witness for `C3_amended_backwards_noop` at the concrete add-only input. -/
theorem C3_amended_backwards_noop_witness :
    AlterEnum.database_backwards addOnlyOp = ([], none) ∧
    lookupType
      (applyEvents
        (applyEvents cex3types
          (AlterEnum.database_forwards addOnlyOp declFeatures []
            ["red", "green", "blue", "yellow"] []).1)
        (AlterEnum.database_backwards addOnlyOp).1) "color" =
      some (["red", "green", "blue"] ++ addOnlyOp.add_values) ∧
    eqSet (["red", "green", "blue"] ++ addOnlyOp.add_values)
      (pyUnion ["red", "green", "blue"] addOnlyOp.add_values) = true :=
  C3_amended_backwards_noop addOnlyOp declFeatures [] ["red", "green", "blue", "yellow"]
    [] cex3types ["red", "green", "blue"] OnDelete.PROTECT
    (by decide) (by decide) (by decide) (by decide) (by decide)

/-- C4: in every successful `database_forwards` run, the trace is exactly the
plan's pre-actions, then the data-migration mutations, then the plan's
post-actions — every pre-action executes before any data-migration step and
every data-migration step executes before any post-action. -/
theorem C4_phase_order (op : AlterEnum) (features : Features)
    (fields : List EnumField) (toValues : List String) (db : List Row)
    (rf : List (EnumField × OnDelete)) (pre post : List Stmt)
    (hres : resolveFields op fields = Except.ok rf)
    (hplan : buildPlan op features rf toValues = Except.ok (pre, post))
    (hok : (AlterEnum.database_forwards op features fields toValues db).2 = none) :
    ∃ dataEvents,
      (AlterEnum.database_forwards op features fields toValues db).1 =
        pre.map Event.ddl ++ dataEvents ++ post.map Event.ddl ∧
      ∀ e ∈ dataEvents, ∃ m, e = Event.mut m := by
  by_cases hr : op.remove_values ≠ []
  · cases hcol : collectOnDelete op.remove_values db rf with
    | error e =>
        exfalso
        simp [AlterEnum.database_forwards, hres, hplan, hr, hcol] at hok
    | ok muts =>
        refine ⟨muts.map Event.mut, ?_, ?_⟩
        · simp [AlterEnum.database_forwards, hres, hplan, hr, hcol]
        · intro e he
          rw [List.mem_map] at he
          obtain ⟨m, _, hm⟩ := he
          exact ⟨m, hm.symm⟩
  · refine ⟨[], ?_, by simp⟩
    simp [AlterEnum.database_forwards, hres, hplan, hr]

/-- Removal alteration with alteration-level policy `SET_NULL`, used as C4's
witness input. -/
def cex4op : AlterEnum :=
  { db_type := "color", add_values := [], remove_values := ["blue"],
    on_delete := some OnDelete.SET_NULL }

/-- Witness for `C4_phase_order`: a removal with one `SET_NULL` column on a
declared-enum database. -/
theorem C4_phase_order_witness :
    ∃ dataEvents,
      (AlterEnum.database_forwards cex4op declFeatures [cex2f1]
          ["red", "green"] cex2db).1 =
        [Stmt.createEnum temp_db_type ["red", "green"]].map Event.ddl ++ dataEvents ++
          [Stmt.alterColumn "t" "c1" (.named temp_db_type),
           Stmt.deleteEnum "color",
           Stmt.renameEnum temp_db_type "color"].map Event.ddl ∧
      ∀ e ∈ dataEvents, ∃ m, e = Event.mut m :=
  C4_phase_order cex4op declFeatures [cex2f1] ["red", "green"] cex2db
    [(cex2f1, OnDelete.SET_NULL)]
    [Stmt.createEnum temp_db_type ["red", "green"]]
    [Stmt.alterColumn "t" "c1" (.named temp_db_type),
     Stmt.deleteEnum "color",
     Stmt.renameEnum temp_db_type "color"]
    (by decide) (by decide) (by decide)

/-- C5: for a removal alteration on a declared-enum database, the post-action
list is exactly the column narrowings to the temporary type, then possibly the
transition-type drop, then the drop of the original named type, then the rename
of the temporary type to the original name — so every narrowing precedes the
drop of the original type, which precedes the rename. -/
theorem C5_post_order (op : AlterEnum) (features : Features)
    (rf : List (EnumField × OnDelete)) (toValues : List String)
    (hr : op.remove_values ≠ []) (he : features.has_enum = true)
    (hd : features.requires_enum_declaration = true) :
    buildPlan op features rf toValues =
      Except.ok (planRemove op features rf toValues) ∧
    ∃ mid,
      (planRemove op features rf toValues).2 =
        rf.map (fun fp =>
          Stmt.alterColumn fp.1.db_table fp.1.column (.named temp_db_type)) ++
          mid ++ [Stmt.deleteEnum op.db_type, Stmt.renameEnum temp_db_type op.db_type] ∧
      ∀ s ∈ mid, s = Stmt.deleteEnum transition_db_type := by
  refine ⟨by simp [buildPlan, hr], ?_⟩
  by_cases htf :
      (if op.add_values ≠ [] then rf.filter (needs_transition op.add_values) else []) ≠ []
  · refine ⟨[Stmt.deleteEnum transition_db_type], ?_, by simp⟩
    simp only [ne_eq] at htf
    simp [planRemove, he, hd, htf]
    rw [if_pos ⟨htf, he, hd⟩]
    rfl
  · simp only [ne_eq, not_not] at htf
    refine ⟨[], ?_, by simp⟩
    simp [planRemove, he, hd, htf]

/-- Witness for `C5_post_order` at a concrete removal with one protect column. -/
theorem C5_post_order_witness :
    buildPlan cex2op declFeatures [(cex2f1, OnDelete.PROTECT)] ["red", "green"] =
      Except.ok (planRemove cex2op declFeatures [(cex2f1, OnDelete.PROTECT)]
        ["red", "green"]) ∧
    ∃ mid,
      (planRemove cex2op declFeatures [(cex2f1, OnDelete.PROTECT)] ["red", "green"]).2 =
        [(cex2f1, OnDelete.PROTECT)].map (fun fp =>
          Stmt.alterColumn fp.1.db_table fp.1.column (.named temp_db_type)) ++
          mid ++
          [Stmt.deleteEnum cex2op.db_type,
           Stmt.renameEnum temp_db_type cex2op.db_type] ∧
      ∀ s ∈ mid, s = Stmt.deleteEnum transition_db_type :=
  C5_post_order cex2op declFeatures [(cex2f1, OnDelete.PROTECT)] ["red", "green"]
    (by decide) (by decide) (by decide)

/-- C7: a pure-addition alteration on a database requiring enum declarations
plans no pre-action and exactly one post-action per added value (an `ADD VALUE`
widening of the live type), and the executed trace is exactly those statements —
no data-migration step occurs. -/
theorem C7_pure_add_decl (op : AlterEnum) (features : Features)
    (fields : List EnumField) (toValues : List String) (db : List Row)
    (rf : List (EnumField × OnDelete))
    (hres : resolveFields op fields = Except.ok rf)
    (hr : op.remove_values = []) (ha : op.add_values ≠ [])
    (hd : features.requires_enum_declaration = true) :
    buildPlan op features rf toValues =
      Except.ok ([], op.add_values.map (fun v => Stmt.addValue op.db_type v)) ∧
    AlterEnum.database_forwards op features fields toValues db =
      (op.add_values.map (fun v => Event.ddl (Stmt.addValue op.db_type v)), none) := by
  constructor
  · simp [buildPlan, hr, ha, hd]
  · simp [AlterEnum.database_forwards, hres, buildPlan, hr, ha, hd]

/-- Witness for `C7_pure_add_decl` at the concrete add-only input. -/
theorem C7_pure_add_decl_witness :
    buildPlan addOnlyOp declFeatures [(cex1field, OnDelete.PROTECT)]
        ["red", "green", "blue", "yellow"] =
      Except.ok ([], addOnlyOp.add_values.map (fun v => Stmt.addValue addOnlyOp.db_type v)) ∧
    AlterEnum.database_forwards addOnlyOp declFeatures [cex1field]
        ["red", "green", "blue", "yellow"] [] =
      (addOnlyOp.add_values.map (fun v => Event.ddl (Stmt.addValue addOnlyOp.db_type v)),
        none) :=
  C7_pure_add_decl addOnlyOp declFeatures [cex1field] ["red", "green", "blue", "yellow"]
    [] [(cex1field, OnDelete.PROTECT)] (by decide) (by decide) (by decide) (by decide)

/-- Lookup after `addType` at the stored name yields the new value list. -/
theorem lookupType_addType_self (s : StateTypes) (n : String) (vs : List String) :
    lookupType (addType s n vs) n = some vs := by
  simp [lookupType, addType, List.find?_cons]

/-- Filtering out the bindings of one name does not change `find?` for another
name. -/
theorem find?_filter_ne (s : StateTypes) (n m : String) (hnm : m ≠ n) :
    (s.filter (fun p => decide (p.1 ≠ n))).find? (fun p => p.1 = m) =
      s.find? (fun p => p.1 = m) := by
  induction s with
  | nil => rfl
  | cons p rest ih =>
      by_cases h2 : p.1 = n
      · have hm : ¬ p.1 = m := by
          intro hmm
          exact hnm (by rw [← hmm, h2])
        rw [List.filter_cons_of_neg (by simp [h2]), ih,
          List.find?_cons_of_neg _ (by simp [hm])]
      · rw [List.filter_cons_of_pos (by simp [h2])]
        by_cases h : p.1 = m
        · rw [List.find?_cons_of_pos _ (by simp [h]),
            List.find?_cons_of_pos _ (by simp [h])]
        · rw [List.find?_cons_of_neg _ (by simp [h]),
            List.find?_cons_of_neg _ (by simp [h]), ih]

/-- Lookup after `addType` at any other name is unchanged. -/
theorem lookupType_addType_ne (s : StateTypes) (n m : String) (vs : List String)
    (hnm : m ≠ n) :
    lookupType (addType s n vs) m = lookupType s m := by
  have hne : ¬ (n = m) := fun h => hnm h.symm
  simp only [lookupType, addType, List.find?_cons, hne]
  rw [find?_filter_ne s n m hnm]
  simp [hne]

/-- C8: `state_forwards` stores, under the enum's name, a snapshot whose value
set is exactly `(from ∪ values_to_add) − values_to_remove`, replacing the old
binding wholesale (no merging) and leaving every other name's binding
unchanged. -/
theorem C8_state_replaces (op : AlterEnum) (s : StateTypes) (fromV : List String)
    (h : lookupType s op.db_type = some fromV) :
    ∃ s', op.state_forwards s = some s' ∧
      lookupType s' op.db_type =
        some (toValuesOf fromV op.add_values op.remove_values) ∧
      (∀ v, v ∈ toValuesOf fromV op.add_values op.remove_values ↔
        ((v ∈ fromV ∨ v ∈ op.add_values) ∧ v ∉ op.remove_values)) ∧
      (∀ n, n ≠ op.db_type → lookupType s' n = lookupType s n) := by
  refine ⟨addType s op.db_type (toValuesOf fromV op.add_values op.remove_values),
    ?_, ?_, ?_, ?_⟩
  · simp [AlterEnum.state_forwards, h]
  · exact lookupType_addType_self s op.db_type _
  · intro v
    simp only [toValuesOf, pyDiff, List.mem_filter, decide_eq_true_eq, mem_pyUnion]
  · intro n hn
    exact lookupType_addType_ne s op.db_type n _ hn

/-- Witness for `C8_state_replaces` at a concrete state holding two enums. -/
theorem C8_state_replaces_witness :
    ∃ s', cex1op.state_forwards
        [("color", ["red", "green", "blue"]), ("size", ["s", "m", "l"])] = some s' ∧
      lookupType s' cex1op.db_type =
        some (toValuesOf ["red", "green", "blue"] cex1op.add_values
          cex1op.remove_values) ∧
      (∀ v, v ∈ toValuesOf ["red", "green", "blue"] cex1op.add_values
          cex1op.remove_values ↔
        ((v ∈ ["red", "green", "blue"] ∨ v ∈ cex1op.add_values) ∧
          v ∉ cex1op.remove_values)) ∧
      (∀ n, n ≠ cex1op.db_type →
        lookupType s' n =
          lookupType [("color", ["red", "green", "blue"]), ("size", ["s", "m", "l"])] n) :=
  C8_state_replaces cex1op [("color", ["red", "green", "blue"]), ("size", ["s", "m", "l"])]
    ["red", "green", "blue"] (by decide)

end DjangoEnum
